import Mathlib

/-!
Verification of the SBOM construction engine of the `release` repository.

The Go sources embedded here are `pkg/spdx/spdx.go` (identifier allocation,
directory indexing, file scanning) and `pkg/anago/stage.go` (artifact BOM
assembly).  Pure functions are translated directly; calls into helper code
that lives outside the two source files (the `spdxImplementation` interface,
the `nozzle/throttler` worker pool, `Package`/`File`/`Document` methods) are
represented either as explicit function-valued parameters or as definitions
modelled from the specification, each marked in its doc comment.
-/

namespace Spdx

/-- The SPDX sentinel for "no license present" (`NONE` in spdx.go). -/
def NONE : String := "NONE"

/-- The SPDX sentinel for "not evaluated" (`NOASSERTION` in spdx.go). -/
def NOASSERTION : String := "NOASSERTION"

/-- The relationship type used for dependency edges (`DEPENDS_ON`). -/
def DEPENDS_ON : String := "DEPENDS_ON"

/-- The relationship type for artifacts derived from source (`GENERATED_FROM`). -/
def GENERATED_FROM : String := "GENERATED_FROM"

/-- A character allowed in an SPDX identifier: the regular expression
`validIDCharsRe = [^a-zA-Z0-9-.]+` in spdx.go deletes every character that is
not a letter, a digit, a hyphen or a period. -/
def legalIDChar (c : Char) : Bool :=
  c.isAlpha || c.isDigit || c = '-' || c = '.'

/-- One iteration of the seed-cleaning loop of `buildIDString`: the characters
`/` and `:` are first replaced by `-` (`strings.ReplaceAll`), then every
remaining illegal character is deleted (`reg.ReplaceAllString(s, "")` with the
regular expression `[^a-zA-Z0-9-.]+`, which erases each run of illegal
characters, i.e. keeps exactly the legal ones in order). -/
def sanitizeSeed (s : String) : String :=
  String.mk ((s.data.map (fun c => if c = '/' || c = ':' then '-' else c)).filter legalIDChar)

/-- Go's `strings.HasPrefix s "SPDXRef-"`, used by `buildIDString` to discount
seeds that already carry the reserved identifier prefix. -/
def hasIDRefPfx (s : String) : Bool :=
  "SPDXRef-".data.isPrefixOf s.data

/-- The surviving seeds of `buildIDString`: each seed is sanitized and kept
when it did not become empty (`if s != ""`), in input order. -/
def validSeeds (seeds : List String) : List String :=
  (seeds.map sanitizeSeed).filter (fun s => s ≠ "")

/-- `numValidSeeds` of `buildIDString`: among the surviving seeds, how many do
not start with the `SPDXRef-` prefix. -/
def numValidSeeds (seeds : List String) : Nat :=
  ((validSeeds seeds).filter (fun s => !hasIDRefPfx s)).length

/-- The final joining loop of `buildIDString`: `id` starts empty and each seed
is appended, preceded by a hyphen whenever `id` is already non-empty. -/
def joinSeeds (l : List String) : String :=
  l.foldl (fun id s => if id = "" then id ++ s else id ++ "-" ++ s) ""

/-- `buildIDString` of spdx.go.  The call `uuid.New().String()` — the only
source of randomness — is modelled by the explicit parameter `uuid`, the
fresh random token that call would return.  When no sanitized seed survives
outside the `SPDXRef-` prefix, the token is appended to the survivor list;
the survivors (with the token, if added) are then joined with hyphens. -/
def buildIDString (uuid : String) (seeds : List String) : String :=
  let vs := validSeeds seeds
  let vs := if numValidSeeds seeds = 0 then vs ++ [uuid] else vs
  joinSeeds vs

/-- Modelled from the spec: a License carries an SPDX license identifier
(the only attribute the engine reads); `License` itself is declared outside
the two source files. -/
structure License where
  LicenseID : String
deriving Repr, DecidableEq

/-- Modelled from the spec: a typed edge between two document elements, with
the fields that stage.go populates (`FullRender`, `Type` — here `RelType`,
since `Type` is reserved in Lean — `PeerReference`, `PeerExtReference`,
`Comment`). -/
structure Relationship where
  FullRender : Bool
  RelType : String
  PeerReference : String
  PeerExtReference : String
  Comment : String
deriving Repr, DecidableEq

/-- Modelled from the spec: one scanned file, with the fields spdx.go and
stage.go populate.  Checksums are algorithm/value pairs. -/
structure File where
  Name : String
  FileName : String
  SourceFile : String
  LicenseConcluded : String
  LicenseInfoInFile : String
  Checksums : List (String × String)
  Relationships : List Relationship
deriving Repr, DecidableEq

/-- Modelled from the spec: `NewFile()` returns a fresh File with zero-valued
fields. -/
def NewFile : File :=
  { Name := "", FileName := "", SourceFile := "", LicenseConcluded := "",
    LicenseInfoInFile := "", Checksums := [], Relationships := [] }

/-- Modelled from the spec: a minimal sub-package produced by the Dependency
Resolver — "a minimal sub-package (name, version, no file contents)". -/
structure DepPackage where
  Name : String
  Version : String
deriving Repr, DecidableEq

/-- Modelled from the spec: a Package — a named unit with a `FilesAnalyzed`
flag, a concluded license, owned Files, outgoing Relationships and resolved
dependency sub-packages. -/
structure Package where
  Name : String
  FilesAnalyzed : Bool
  LicenseConcluded : String
  Files : List File
  Relationships : List Relationship
  Dependencies : List DepPackage
deriving Repr, DecidableEq

/-- Modelled from the spec: `NewPackage()` returns a fresh Package with
zero-valued fields. -/
def NewPackage : Package :=
  { Name := "", FilesAnalyzed := false, LicenseConcluded := "",
    Files := [], Relationships := [], Dependencies := [] }

/-- Modelled from the spec: the `DEPENDS_ON` relationship linking a parent
package to one resolved dependency sub-package. -/
def depRel (dep : DepPackage) : Relationship :=
  { FullRender := false, RelType := DEPENDS_ON, PeerReference := dep.Name,
    PeerExtReference := "", Comment := "" }

/-- Modelled from the spec: `Package.AddDependency` converts a resolved
dependency into a sub-package attached to the parent and linked to it via a
`DEPENDS_ON` relationship. -/
def Package.AddDependency (pkg : Package) (dep : DepPackage) : Package :=
  { pkg with
    Dependencies := pkg.Dependencies ++ [dep],
    Relationships := pkg.Relationships ++ [depRel dep] }

/-- `Package.AddRelationship` (declared outside the sources): appends an
outgoing relationship to the package, modelled from the spec's "relationship
lists may be appended by later pipeline stages". -/
def Package.AddRelationship (pkg : Package) (rel : Relationship) : Package :=
  { pkg with Relationships := pkg.Relationships ++ [rel] }

/-- The `Options` struct of spdx.go. -/
structure Options where
  AnalyzeLayers : Bool
  NoGitignore : Bool
  ProcessGoModules : Bool
  OnlyDirectDeps : Bool
  ScanLicenses : Bool
  LicenseCacheDir : String
  LicenseData : String
  IgnorePatterns : List String

/-- The manifest file name the Dependency Resolver looks for (`GoModFileName`,
declared outside the sources; the spec's "build-tool dependency manifest" for
Go is `go.mod`). -/
def GoModFileName : String := "go.mod"

/-- `filepath.Join` of two segments, modelled as separator concatenation; the
result is only ever passed to the abstract filesystem capabilities, which
treat it as an uninterpreted path. -/
def joinPath (a b : String) : String := a ++ "/" ++ b

/-- Go's `strings.TrimPrefix s p`: drops `p` from the front of `s` when it is
a prefix, otherwise returns `s` unchanged. -/
def trimPfxStr (s p : String) : String :=
  if p.data.isPrefixOf s.data then String.mk (s.data.drop p.data.length) else s

/-- Modelled from the spec: the capability bundle PackageFromDirectory draws
on.  The `spdxImplementation` interface, the license reader and the helper
methods of `File`/`Package` are declared outside the two source files, so
each is an explicit function-valued field here: `Abs` (filepath.Abs),
`GetDirectoryTree`, `LicenseReader` (creation of the reader, which can fail),
`GetDirectoryLicense`, `IgnorePatterns`, `ApplyIgnorePatterns`,
`LicenseFromFile` (the reader's classifier: an error, no match, or a match),
`ReadSourceFile` (checksum computation: the resulting algorithm/value pairs,
or a read error), `Base` (filepath.Base), `FileExists` (util.Exists) and
`GetGoDependencies` (the Dependency Resolver). -/
structure SpdxImplementation where
  Abs : String → Except String String
  GetDirectoryTree : String → Except String (List String)
  LicenseReader : Options → Except String Unit
  GetDirectoryLicense : String → Options → Except String (Option License)
  IgnorePatterns : String → List String → Bool → Except String (List String)
  ApplyIgnorePatterns : List String → List String → List String
  LicenseFromFile : String → Except String (Option License)
  ReadSourceFile : String → Except String (List (String × String))
  Base : String → String
  FileExists : String → Bool
  GetGoDependencies : String → Options → Except String (List DepPackage)

/-- The directory-level `licenseTag` of `PackageFromDirectory`: it starts
empty and is set to the license identifier only when the directory scan found
a license (`if lic != nil { licenseTag = lic.LicenseID }`). -/
def licTag (dirLic : Option License) : String :=
  match dirLic with
  | none => ""
  | some l => l.LicenseID

/-- The `processDirectoryFile` closure of `PackageFromDirectory`: build a
fresh File for `path`, classify its license (an error aborts the file), set
`LicenseInfoInFile` to `NONE` and — when no match was found — fall back to
the directory-level `licenseTag` for the concluded license, a match instead
overwriting `LicenseInfoInFile` with the matched identifier; then read the
source file for checksumming (an error aborts the file) and set the display
name.  Insertion into the package is done by the coordinator (`scanStep`). -/
def processDirectoryFile (env : SpdxImplementation) (dirPath licenseTag path : String) :
    Except String File :=
  let f := { NewFile with FileName := path, SourceFile := joinPath dirPath path }
  match env.LicenseFromFile f.SourceFile with
  | .error e => .error ("scanning file for license: " ++ e)
  | .ok lic =>
    let f := { f with LicenseInfoInFile := NONE }
    let f := match lic with
             | none => { f with LicenseConcluded := licenseTag }
             | some l => { f with LicenseInfoInFile := l.LicenseID }
    match env.ReadSourceFile (joinPath dirPath path) with
    | .error e => .error ("checksumming file: " ++ e)
    | .ok sums =>
      .ok { f with Checksums := sums, Name := trimPfxStr path (dirPath ++ "/") }

/-- The state threaded through the sequentialized coordinator run of
`PackageFromDirectory`: the shared package, the shared named-return `err`
variable of `PackageFromDirectory` (which every closure assigns to), and the
first error the throttler pool has received through a `t.Done` call. -/
structure ScanState where
  pkg : Package
  sharedErr : Option String
  reported : Option String
deriving Repr, DecidableEq

/-- One dispatch of the coordinator loop, sequentialized in dispatch order.
The closure begins with `defer t.Done(err)`, and Go evaluates a deferred
call's arguments when the `defer` statement executes — at closure entry — so
the value handed to the pool is the shared `err` as the PREVIOUS dispatch
left it, not this file's own outcome.  The body then runs: a successful scan
appends its File to the shared package (`pkg.AddFile`, which lives outside
the sources and is modelled from the spec as collection insertion) and its
final `err = pkg.AddFile(f)` assignment leaves the shared `err` nil, while a
failed scan leaves the shared `err` holding its wrapped error.  The
throttler pool itself is not among the sources; per the spec it retains the
first (non-nil) error it receives, modelled in `reported`. -/
def scanStep (env : SpdxImplementation) (dirPath licenseTag : String)
    (st : ScanState) (path : String) : ScanState :=
  let doneArg := st.sharedErr
  let reported := match st.reported with
                  | some e0 => some e0
                  | none => doneArg
  match processDirectoryFile env dirPath licenseTag path with
  | .ok f =>
      { pkg := { st.pkg with Files := st.pkg.Files ++ [f] },
        sharedErr := none,
        reported := reported }
  | .error e =>
      { pkg := st.pkg,
        sharedErr := some e,
        reported := reported }

/-- The coordinator's whole run, sequentialized in dispatch order: every
file of the list is dispatched (the loop never stops submitting), the shared
package accumulates the successful Files, and the shared `err` starts nil
(every earlier assignment to the named return either was nil or caused an
early return).  `t.Err()` afterwards sees exactly the `reported`
component — because of the stale `defer t.Done(err)` argument, the last
dispatch's own failure never reaches it. -/
def scanFiles (env : SpdxImplementation) (dirPath licenseTag : String)
    (fileList : List String) (pkg : Package) : ScanState :=
  fileList.foldl (scanStep env dirPath licenseTag)
    { pkg := pkg, sharedErr := none, reported := none }

/-- `PackageFromDirectory` of spdx.go.  `uuid.NewString()` — used only when
the directory's base name is empty — is modelled by the `nameUUID`
parameter.  Each step mirrors the source: absolute path, directory tree,
license reader, directory-level license (an absent license leaves
`licenseTag` empty), ignore patterns, filtering, package construction, the
coordinator run over the remaining files (an error the pool received makes
`t.Err()` non-nil and the call returns it with no package; because of the
stale deferred handoff a failure in the last dispatched file is never
received and the call falls through to `return pkg, nil`), and finally the
go.mod dependency pass, whose resolution failure aborts the call with a
wrapped error. -/
def PackageFromDirectory (env : SpdxImplementation) (opts : Options)
    (nameUUID : String) (dirPath0 : String) : Except String Package :=
  match env.Abs dirPath0 with
  | .error e => .error ("getting absolute directory path: " ++ e)
  | .ok dirPath =>
  match env.GetDirectoryTree dirPath with
  | .error e => .error ("building directory tree: " ++ e)
  | .ok fileList0 =>
  match env.LicenseReader opts with
  | .error e => .error ("creating license reader: " ++ e)
  | .ok _ =>
  match env.GetDirectoryLicense dirPath opts with
  | .error e => .error ("scanning directory for licenses: " ++ e)
  | .ok dirLic =>
  let licenseTag := licTag dirLic
  match env.IgnorePatterns dirPath opts.IgnorePatterns opts.NoGitignore with
  | .error e => .error ("building ignore patterns list: " ++ e)
  | .ok patterns =>
  let fileList := env.ApplyIgnorePatterns fileList0 patterns
  let pkg := { NewPackage with
               FilesAnalyzed := true,
               Name := if env.Base dirPath = "" then nameUUID else env.Base dirPath,
               LicenseConcluded := licenseTag }
  let scanned := scanFiles env dirPath licenseTag fileList pkg
  match scanned.reported with
  | some e => .error e
  | none =>
    if env.FileExists (joinPath dirPath GoModFileName) && opts.ProcessGoModules then
      match env.GetGoDependencies dirPath opts with
      | .error e => .error ("scanning go packages: " ++ e)
      | .ok deps => .ok (deps.foldl Package.AddDependency scanned.pkg)
    else .ok scanned.pkg

/-- `FileFromPath` of spdx.go: an error when no file exists at the path,
otherwise a fresh File whose source was read for checksumming
(`ReadSourceFile`, modelled from the spec as the checksum capability of the
environment), a read failure propagating as a wrapped error. -/
def FileFromPath (env : SpdxImplementation) (filePath : String) : Except String File :=
  if !env.FileExists filePath then .error "file does not exist"
  else
    match env.ReadSourceFile filePath with
    | .error e => .error ("creating file from path: " ++ e)
    | .ok sums => .ok { NewFile with Checksums := sums }

/-- Modelled from the spec: a pointer to another Document produced in a
related run — local alias identifier, external URI, checksum of the
referenced document. -/
structure ExternalDocumentRef where
  ID : String
  URI : String
  Checksum : String
deriving Repr, DecidableEq

/-- Modelled from the spec: the root document graph, restricted to the
attributes stage.go manipulates — name, namespace URI, the package set and
the external document references. -/
structure Document where
  Name : String
  Namespace : String
  Packages : List Package
  ExternalDocRefs : List ExternalDocumentRef
deriving Repr, DecidableEq

/-- The `DocGenerateOptions` struct (declared outside the sources), modelled
from the fields stage.go sets when invoking the document builder. -/
structure DocGenerateOptions where
  Name : String
  ProcessGoModules : Bool
  AnalyseLayers : Bool
  OnlyDirectDeps : Bool
  ScanLicenses : Bool
  License : String
  Namespace : String
  OutputFile : String
  Tarballs : List String
  Directories : List String

end Spdx

namespace Anago

open Spdx

/-- Modelled from the spec: the license identifier constant stage.go stamps
on release files (declared outside the sources; its value does not matter to
the claims, only that it is a fixed constant). -/
def LicenseIdentifier : String := "Apache-2.0"

/-- Modelled from the spec: the capabilities `GenerateVersionArtifactsBOM`
draws on, each declared outside the two source files: listing the image
archives of a version, generating the base artifacts document, adding the
binaries and tarballs to a document (both mutate the document, so they are
document-to-document here), computing the checksum of the referenced
source-tree SBOM file (`ExternalDocumentRef.ReadSourceFile`, which fills in
only the checksum), and writing a document to disk. -/
structure StageImpl where
  ListImageArchives : String → Except String (List String)
  BuildBaseArtifactsSBOM : DocGenerateOptions → Except String Document
  AddBinariesToSBOM : Document → String → Except String Document
  AddTarfilesToSBOM : Document → String → Except String Document
  ReadExtRefChecksum : String → Except String String
  WriteDocument : Document → String → Except String Unit

/-- The external document reference stage.go attaches for the source-tree
SBOM of a version: alias `kubernetes-<version>`, URI
`https://sbom.k8s.io/<version>/source`, and the checksum computed from the
source SBOM file by `extRef.ReadSourceFile`. -/
def sourceExtRef (version chk : String) : ExternalDocumentRef :=
  { ID := "kubernetes-" ++ version,
    URI := "https://sbom.k8s.io/" ++ version ++ "/source",
    Checksum := chk }

/-- The `GENERATED_FROM` relationship stage.go stamps on every package of the
artifacts document, pointing at the source-tree document of the version
through the external alias. -/
def stampRel (version : String) : Relationship :=
  { FullRender := false,
    RelType := GENERATED_FROM,
    PeerReference := "SPDXRef-Package-kubernetes",
    PeerExtReference := "kubernetes-" ++ version,
    Comment := "Source code" }

/-- The two mutation steps of `GenerateVersionArtifactsBOM` between assembly
and serialization: append the source-tree external document reference, then
stamp every package with the `GENERATED_FROM` relationship. -/
def stampDoc (version chk : String) (doc : Document) : Document :=
  let doc3 := { doc with ExternalDocRefs := doc.ExternalDocRefs ++ [sourceExtRef version chk] }
  { doc3 with
    Packages := doc3.Packages.map (fun pkg => pkg.AddRelationship (stampRel version)) }

/-- `GenerateVersionArtifactsBOM` of stage.go.  The returned Document is the
one handed to `doc.Write` — i.e. the document as serialized: list the image
archives, build the base artifacts SBOM over them, add binaries and tarballs,
attach the source-tree SBOM of the version as an external document
reference (`kubernetes-<version>`, URI `https://sbom.k8s.io/<version>/source`),
stamp every package of the document with a `GENERATED_FROM` relationship
whose external peer reference is that alias, and write the result. -/
def GenerateVersionArtifactsBOM (impl : StageImpl) (version : String) :
    Except String Document :=
  match impl.ListImageArchives version with
  | .error e => .error ("getting artifacts list: " ++ e)
  | .ok images =>
  match impl.BuildBaseArtifactsSBOM
      { Name := "Kubernetes Release " ++ version,
        ProcessGoModules := false,
        AnalyseLayers := false,
        OnlyDirectDeps := false,
        ScanLicenses := false,
        License := LicenseIdentifier,
        Namespace := "https://sbom.k8s.io/" ++ version ++ "/release",
        OutputFile := "",
        Tarballs := images,
        Directories := [] } with
  | .error e => .error ("generating base artifacts sbom for " ++ version ++ ": " ++ e)
  | .ok doc0 =>
  match impl.AddBinariesToSBOM doc0 version with
  | .error e => .error ("adding binaries to " ++ version ++ " SBOM: " ++ e)
  | .ok doc1 =>
  match impl.AddTarfilesToSBOM doc1 version with
  | .error e => .error ("adding tarballs to " ++ version ++ " SBOM: " ++ e)
  | .ok doc2 =>
  match impl.ReadExtRefChecksum ("source-bom-" ++ version ++ ".spdx") with
  | .error e => .error ("reading the source file as external reference: " ++ e)
  | .ok chk =>
  match impl.WriteDocument (stampDoc version chk doc2)
      ("release-bom-" ++ version ++ ".spdx") with
  | .error e => .error ("writing artifacts SBOM for " ++ version ++ ": " ++ e)
  | .ok _ => .ok (stampDoc version chk doc2)

end Anago

namespace Spdx

/-- A string made of legal SPDX identifier characters only. -/
def legalIDString (s : String) : Bool := s.data.all legalIDChar

theorem sanitizeSeed_legal (s : String) : legalIDString (sanitizeSeed s) = true := by
  simp only [legalIDString, sanitizeSeed, List.all_eq_true]
  intro c hc
  exact (List.mem_filter.mp hc).2

theorem mem_validSeeds (seeds : List String) (x : String) (hx : x ∈ validSeeds seeds) :
    x ≠ "" ∧ legalIDString x = true := by
  unfold validSeeds at hx
  have h1 := List.mem_filter.mp hx
  obtain ⟨s0, _, hs0⟩ := List.mem_map.mp h1.1
  refine ⟨by simpa using h1.2, ?_⟩
  rw [← hs0]
  exact sanitizeSeed_legal s0

theorem string_append_empty_left (s : String) : "" ++ s = s := by
  apply String.ext
  simp

theorem string_ne_empty_of_pos (s : String) (h : 0 < s.length) : s ≠ "" := by
  intro he
  rw [he] at h
  simp at h

theorem joinSeeds_len (l : List String) :
    ∀ acc : String, acc.length ≤
      (l.foldl (fun id s => if id = "" then id ++ s else id ++ "-" ++ s) acc).length := by
  induction l with
  | nil => intro acc; exact Nat.le_refl _
  | cons s rest ih =>
    intro acc
    refine Nat.le_trans ?_ (ih _)
    by_cases hacc : acc = ""
    · simp [hacc, String.length_append]
    · simp [hacc, String.length_append]
      omega

theorem joinSeeds_legal (l : List String) :
    ∀ acc : String, legalIDString acc = true → (∀ s ∈ l, legalIDString s = true) →
      legalIDString
        (l.foldl (fun id s => if id = "" then id ++ s else id ++ "-" ++ s) acc) = true := by
  induction l with
  | nil => intro acc hacc _; exact hacc
  | cons s rest ih =>
    intro acc hacc hall
    refine ih _ ?_ (fun t ht => hall t (List.mem_cons_of_mem _ ht))
    have hs := hall s (List.mem_cons_self _ _)
    have hd : legalIDChar '-' = true := by decide
    by_cases h : acc = ""
    · simpa [h, legalIDString, String.data_append] using And.intro hacc hs
    · simp only [legalIDString, String.data_append, List.all_append] at *
      simp [h, hacc, hs, hd]

theorem string_pos_of_ne_empty (s : String) (h : s ≠ "") : 0 < s.length := by
  cases s with
  | mk data =>
    cases data with
    | nil => exact absurd (by decide) h
    | cons c cs => simp [String.length]

theorem joinSeeds_cons_ne_empty (s : String) (rest : List String) (hs : s ≠ "") :
    joinSeeds (s :: rest) ≠ "" := by
  unfold joinSeeds
  simp only [List.foldl_cons, if_pos rfl, string_append_empty_left]
  exact string_ne_empty_of_pos _
    (Nat.lt_of_lt_of_le (string_pos_of_ne_empty s hs) (joinSeeds_len rest s))

theorem joinSeeds_append_one (l : List String) (u : String) :
    joinSeeds (l ++ [u]) =
      if joinSeeds l = "" then u else joinSeeds l ++ "-" ++ u := by
  unfold joinSeeds
  rw [List.foldl_append]
  simp only [List.foldl_cons, List.foldl_nil]
  by_cases h : List.foldl (fun id s => if id = "" then id ++ s else id ++ "-" ++ s) "" l = ""
  · simp [h, string_append_empty_left]
  · simp [h]

theorem string_append_left_cancel (a b c : String) (h : a ++ b = a ++ c) : b = c := by
  apply String.ext
  have := congrArg String.data h
  simpa [String.data_append] using this

/-- C4: for every seed list, `buildIDString` returns a non-empty string made
only of letters, digits, hyphens and periods, provided the random fallback
token (a UUID rendered as hex digits and hyphens) is itself non-empty and
legal. -/
theorem buildIDString_nonempty_legal (seeds : List String) (u : String)
    (hu : u ≠ "") (hul : legalIDString u = true) :
    buildIDString u seeds ≠ "" ∧ legalIDString (buildIDString u seeds) = true := by
  unfold buildIDString
  by_cases h0 : numValidSeeds seeds = 0
  · simp only [h0, if_pos rfl]
    constructor
    · cases hvs : validSeeds seeds with
      | nil => simpa [hvs, joinSeeds, string_append_empty_left] using hu
      | cons v rest =>
        have hv : v ≠ "" :=
          (mem_validSeeds seeds v (by rw [hvs]; exact List.mem_cons_self v rest)).1
        simpa using joinSeeds_cons_ne_empty v (rest ++ [u]) hv
    · refine joinSeeds_legal _ "" (by simp [legalIDString]) ?_
      intro s hs
      rcases List.mem_append.mp hs with h | h
      · exact (mem_validSeeds seeds s h).2
      · simpa [List.mem_singleton.mp h] using hul
  · simp only [h0, if_neg h0]
    have hvs : validSeeds seeds ≠ [] := by
      intro hnil
      apply h0
      simp [numValidSeeds, hnil]
    constructor
    · cases hvs2 : validSeeds seeds with
      | nil => exact absurd hvs2 hvs
      | cons v rest =>
        have hv : v ≠ "" :=
          (mem_validSeeds seeds v (by rw [hvs2]; exact List.mem_cons_self v rest)).1
        simpa using joinSeeds_cons_ne_empty v rest hv
    · exact joinSeeds_legal _ "" (by simp [legalIDString])
        (fun s hs => (mem_validSeeds seeds s hs).2)

/-- C4 witness: a concrete seed list with a concrete fallback token. -/
theorem buildIDString_nonempty_legal_witness :
    buildIDString "9f2c-11aa" ["k8s.io/release:v1.22.0"] ≠ "" ∧
    legalIDString (buildIDString "9f2c-11aa" ["k8s.io/release:v1.22.0"]) = true :=
  buildIDString_nonempty_legal ["k8s.io/release:v1.22.0"] "9f2c-11aa"
    (by decide) (by decide)

/-- C7: outside the fallback case (some sanitized, non-prefixed seed
survives), `buildIDString` does not consult the random token at all, so two
calls over the same seed list — modelled as two arbitrary tokens `u1`,
`u2` — return the same identifier. -/
theorem buildIDString_deterministic (seeds : List String) (u1 u2 : String)
    (h : numValidSeeds seeds ≠ 0) :
    buildIDString u1 seeds = buildIDString u2 seeds := by
  unfold buildIDString
  simp [h]

/-- C7 witness: the seed list `["krel"]` has a surviving non-prefixed seed,
and two calls with different random tokens agree. -/
theorem buildIDString_deterministic_witness :
    buildIDString "aaaa" ["krel"] = buildIDString "bbbb" ["krel"] :=
  buildIDString_deterministic ["krel"] "aaaa" "bbbb" (by decide)

/-- C3 counterexample: the seed list `["SPDXRef-x"]` is degenerate (its only
sanitized seed carries the `SPDXRef-` prefix, so the meaningful seed count is
zero and the random fallback fires), yet with fresh token `"u1"` the call
returns `"SPDXRef-x-u1"`, not the freshly generated token itself. -/
theorem buildIDString_fallback_not_bare_token :
    numValidSeeds ["SPDXRef-x"] = 0 ∧
    buildIDString "u1" ["SPDXRef-x"] = "SPDXRef-x-u1" ∧
    buildIDString "u1" ["SPDXRef-x"] ≠ "u1" := by
  refine ⟨by decide, by decide, by decide⟩

/-- C3 (amended): in the fallback case the fresh random token is appended to
the surviving (necessarily `SPDXRef-`-prefixed) seeds and the whole list is
joined — in particular the result is exactly the token when no seed survives
— and two such calls with distinct fresh tokens return distinct
identifiers. -/
theorem buildIDString_fallback_fresh (seeds : List String) (u1 u2 : String)
    (h : numValidSeeds seeds = 0) (hne : u1 ≠ u2) :
    buildIDString u1 seeds = joinSeeds (validSeeds seeds ++ [u1]) ∧
    buildIDString u1 seeds ≠ buildIDString u2 seeds := by
  have hb : ∀ u, buildIDString u seeds = joinSeeds (validSeeds seeds ++ [u]) := by
    intro u
    unfold buildIDString
    simp [h]
  refine ⟨hb u1, ?_⟩
  rw [hb u1, hb u2, joinSeeds_append_one, joinSeeds_append_one]
  by_cases hj : joinSeeds (validSeeds seeds) = ""
  · simpa [hj] using hne
  · simp only [hj, if_neg hj]
    intro hcontra
    exact hne (string_append_left_cancel _ _ _ hcontra)

/-- C3 witness: two fallback calls over the same degenerate seed list with
distinct fresh tokens yield distinct identifiers. -/
theorem buildIDString_fallback_fresh_witness :
    buildIDString "u1" ["SPDXRef-x"] = joinSeeds (validSeeds ["SPDXRef-x"] ++ ["u1"]) ∧
    buildIDString "u1" ["SPDXRef-x"] ≠ buildIDString "u2" ["SPDXRef-x"] :=
  buildIDString_fallback_fresh ["SPDXRef-x"] "u1" "u2" (by decide) (by decide)

end Spdx

namespace Spdx

theorem scanStep_meta (env : SpdxImplementation) (dirPath licenseTag : String)
    (st : ScanState) (p : String) :
    (scanStep env dirPath licenseTag st p).pkg.Name = st.pkg.Name ∧
    (scanStep env dirPath licenseTag st p).pkg.FilesAnalyzed = st.pkg.FilesAnalyzed ∧
    (scanStep env dirPath licenseTag st p).pkg.LicenseConcluded = st.pkg.LicenseConcluded ∧
    (scanStep env dirPath licenseTag st p).pkg.Relationships = st.pkg.Relationships ∧
    (scanStep env dirPath licenseTag st p).pkg.Dependencies = st.pkg.Dependencies := by
  unfold scanStep
  cases processDirectoryFile env dirPath licenseTag p <;> simp

theorem scanFold_meta (env : SpdxImplementation) (dirPath licenseTag : String)
    (l : List String) :
    ∀ st : ScanState,
      (l.foldl (scanStep env dirPath licenseTag) st).pkg.Name = st.pkg.Name ∧
      (l.foldl (scanStep env dirPath licenseTag) st).pkg.FilesAnalyzed = st.pkg.FilesAnalyzed ∧
      (l.foldl (scanStep env dirPath licenseTag) st).pkg.LicenseConcluded = st.pkg.LicenseConcluded ∧
      (l.foldl (scanStep env dirPath licenseTag) st).pkg.Relationships = st.pkg.Relationships ∧
      (l.foldl (scanStep env dirPath licenseTag) st).pkg.Dependencies = st.pkg.Dependencies := by
  induction l with
  | nil => intro st; exact ⟨rfl, rfl, rfl, rfl, rfl⟩
  | cons p rest ih =>
    intro st
    have h1 := ih (scanStep env dirPath licenseTag st p)
    have h2 := scanStep_meta env dirPath licenseTag st p
    simp only [List.foldl_cons]
    exact ⟨h1.1.trans h2.1, h1.2.1.trans h2.2.1, h1.2.2.1.trans h2.2.2.1,
           h1.2.2.2.1.trans h2.2.2.2.1, h1.2.2.2.2.trans h2.2.2.2.2⟩

theorem scanStep_ok (env : SpdxImplementation) (dirPath licenseTag : String)
    (st : ScanState) (p : String) (f : File)
    (hp : processDirectoryFile env dirPath licenseTag p = .ok f) :
    scanStep env dirPath licenseTag st p
      = { pkg := { st.pkg with Files := st.pkg.Files ++ [f] },
          sharedErr := none,
          reported := match st.reported with
                      | some e0 => some e0
                      | none => st.sharedErr } := by
  unfold scanStep
  rw [hp]

theorem scanStep_error (env : SpdxImplementation) (dirPath licenseTag : String)
    (st : ScanState) (p e : String)
    (hp : processDirectoryFile env dirPath licenseTag p = .error e) :
    scanStep env dirPath licenseTag st p
      = { pkg := st.pkg,
          sharedErr := some e,
          reported := match st.reported with
                      | some e0 => some e0
                      | none => st.sharedErr } := by
  unfold scanStep
  rw [hp]

theorem scanFold_ok_clean (env : SpdxImplementation) (dirPath licenseTag : String)
    (l : List String) :
    ∀ st : ScanState,
      (∀ p ∈ l, ∃ f, processDirectoryFile env dirPath licenseTag p = .ok f) →
      st.sharedErr = none →
      (l.foldl (scanStep env dirPath licenseTag) st).pkg.Files.length
        = st.pkg.Files.length + l.length ∧
      (l.foldl (scanStep env dirPath licenseTag) st).sharedErr = none ∧
      (l.foldl (scanStep env dirPath licenseTag) st).reported = st.reported := by
  induction l with
  | nil => intro st _ hsh; exact ⟨rfl, hsh, rfl⟩
  | cons p rest ih =>
    intro st hall hsh
    obtain ⟨f, hf⟩ := hall p (List.mem_cons_self _ _)
    have hstep := scanStep_ok env dirPath licenseTag st p f hf
    have hrest := ih (scanStep env dirPath licenseTag st p)
      (fun q hq => hall q (List.mem_cons_of_mem _ hq)) (by rw [hstep])
    simp only [List.foldl_cons]
    refine ⟨?_, hrest.2.1, ?_⟩
    · rw [hrest.1, hstep]
      simp [List.length_append]
      omega
    · rw [hrest.2.2, hstep]
      simp only [hsh]
      cases st.reported <;> simp

end Spdx

namespace Spdx

/-- A concrete environment for evaluating the theorems on explicit inputs: a
`/repo` directory holding `a.txt` (no recognizable license), `bad.bin`
(unreadable) and `LICENSE` (matching the corpus entry `Apache-2.0`), plus a
`go.mod` manifest resolving to one dependency. -/
def sampleEnv : SpdxImplementation :=
  { Abs := fun p => .ok p,
    GetDirectoryTree := fun _ => .ok ["a.txt", "bad.bin", "LICENSE"],
    LicenseReader := fun _ => .ok (),
    GetDirectoryLicense := fun _ _ => .ok (some { LicenseID := "Apache-2.0" }),
    IgnorePatterns := fun _ pats _ => .ok pats,
    ApplyIgnorePatterns := fun files _ => files,
    LicenseFromFile := fun p =>
      if p = "/repo/LICENSE" then .ok (some { LicenseID := "Apache-2.0" }) else .ok none,
    ReadSourceFile := fun p =>
      if p = "/repo/bad.bin" then .error "read failed" else .ok [("SHA256", "abc")],
    Base := fun _ => "repo",
    FileExists := fun p => p ≠ "/missing.txt",
    GetGoDependencies := fun _ _ => .ok [{ Name := "sigs.k8s.io/yaml", Version := "v1.2.0" }] }

/-- The `Options` value used by the concrete evaluations (the default options
of spdx.go, with empty cache paths). -/
def sampleOptions : Options :=
  { AnalyzeLayers := true, NoGitignore := false, ProcessGoModules := true,
    OnlyDirectDeps := false, ScanLicenses := true, LicenseCacheDir := "",
    LicenseData := "", IgnorePatterns := [] }

/-- C2: for a file scanned during `PackageFromDirectory` whose content can be
read for checksumming, a classification that finds no match leaves the file's
`LicenseInfoInFile` at the `NONE` sentinel and sets its concluded license to
the enclosing package's directory-level concluded license (in particular not
to `NOASSERTION` unless that is the directory's own tag), while a match sets
`LicenseInfoInFile` to the matched license identifier. -/
theorem processDirectoryFile_license_fields (env : SpdxImplementation)
    (dirPath licenseTag path : String) (sums : List (String × String))
    (hread : env.ReadSourceFile (joinPath dirPath path) = .ok sums) :
    (env.LicenseFromFile (joinPath dirPath path) = .ok none →
      ∃ f, processDirectoryFile env dirPath licenseTag path = .ok f ∧
        f.LicenseInfoInFile = NONE ∧ f.LicenseConcluded = licenseTag) ∧
    (∀ l : License, env.LicenseFromFile (joinPath dirPath path) = .ok (some l) →
      ∃ f, processDirectoryFile env dirPath licenseTag path = .ok f ∧
        f.LicenseInfoInFile = l.LicenseID) := by
  constructor
  · intro hcls
    refine ⟨{ Name := trimPfxStr path (dirPath ++ "/"), FileName := path,
              SourceFile := joinPath dirPath path, LicenseConcluded := licenseTag,
              LicenseInfoInFile := NONE, Checksums := sums, Relationships := [] },
            ?_, rfl, rfl⟩
    unfold processDirectoryFile
    simp only [hcls, hread]
    rfl
  · intro l hcls
    refine ⟨{ Name := trimPfxStr path (dirPath ++ "/"), FileName := path,
              SourceFile := joinPath dirPath path, LicenseConcluded := "",
              LicenseInfoInFile := l.LicenseID, Checksums := sums, Relationships := [] },
            ?_, rfl⟩
    unfold processDirectoryFile
    simp only [hcls, hread]
    rfl

/-- C2 witness: in the sample environment, `a.txt` gets `NONE` with the
directory tag `Apache-2.0` as concluded license, and `LICENSE` gets the
matched identifier `Apache-2.0`. -/
theorem processDirectoryFile_license_fields_witness :
    (∃ f, processDirectoryFile sampleEnv "/repo" "Apache-2.0" "a.txt" = .ok f ∧
      f.LicenseInfoInFile = NONE ∧ f.LicenseConcluded = "Apache-2.0") ∧
    (∃ f, processDirectoryFile sampleEnv "/repo" "Apache-2.0" "LICENSE" = .ok f ∧
      f.LicenseInfoInFile = "Apache-2.0") :=
  ⟨(processDirectoryFile_license_fields sampleEnv "/repo" "Apache-2.0" "a.txt"
      [("SHA256", "abc")] rfl).1 rfl,
   (processDirectoryFile_license_fields sampleEnv "/repo" "Apache-2.0" "LICENSE"
      [("SHA256", "abc")] rfl).2 { LicenseID := "Apache-2.0" } rfl⟩

/-- C9: `FileFromPath` returns an error and no File when no file exists at
the path, and returns a File when the file exists and its content could be
read for checksumming. -/
theorem FileFromPath_missing_or_ok (env : SpdxImplementation) (p : String) :
    (env.FileExists p = false → FileFromPath env p = .error "file does not exist") ∧
    (env.FileExists p = true → ∀ sums, env.ReadSourceFile p = .ok sums →
      ∃ f, FileFromPath env p = .ok f) := by
  constructor
  · intro h
    simp [FileFromPath, h]
  · intro h sums hr
    refine ⟨{ NewFile with Checksums := sums }, ?_⟩
    simp [FileFromPath, h, hr]

/-- C9 witness: a missing path errors, an existing readable path yields a
File. -/
theorem FileFromPath_missing_or_ok_witness :
    FileFromPath sampleEnv "/missing.txt" = .error "file does not exist" ∧
    ∃ f, FileFromPath sampleEnv "/repo/LICENSE" = .ok f :=
  ⟨(FileFromPath_missing_or_ok sampleEnv "/missing.txt").1 (by decide),
   (FileFromPath_missing_or_ok sampleEnv "/repo/LICENSE").2 (by decide)
     [("SHA256", "abc")] rfl⟩

end Spdx

namespace Spdx

/-- A variant of the sample environment in which the unreadable file is the
LAST dispatched (`a.txt`, `LICENSE`, then `bad.bin`) and no go.mod manifest
is present. -/
def sampleEnvBadLast : SpdxImplementation :=
  { sampleEnv with
    GetDirectoryTree := fun _ => .ok ["a.txt", "LICENSE", "bad.bin"],
    FileExists := fun p => p ≠ "/missing.txt" && p ≠ "/repo/go.mod" }

/-- C1 counterexample: with the unreadable file dispatched last, the deferred
`t.Done(err)` argument was captured at closure entry — before the failure —
so the pool never receives the error: the coordinator reports nothing and the
call returns the incomplete two-file package together with a nil error, not
the failure's error with no package as the claim states. -/
theorem coordinator_last_error_lost :
    processDirectoryFile sampleEnvBadLast "/repo" "Apache-2.0" "bad.bin"
      = .error "checksumming file: read failed" ∧
    ∃ pkg, PackageFromDirectory sampleEnvBadLast sampleOptions "u" "/repo" = .ok pkg ∧
      pkg.Files.length = 2 :=
  ⟨rfl, _, rfl, rfl⟩

theorem scanFold_post_error (env : SpdxImplementation) (dirPath licenseTag : String)
    (post : List String) (e : String) (st : ScanState)
    (hall : ∀ p ∈ post, ∃ f, processDirectoryFile env dirPath licenseTag p = .ok f)
    (hsh : st.sharedErr = some e) (hrep : st.reported = none) :
    (post.foldl (scanStep env dirPath licenseTag) st).pkg.Files.length
      = st.pkg.Files.length + post.length ∧
    (post.foldl (scanStep env dirPath licenseTag) st).reported
      = (if post = [] then none else some e) := by
  cases post with
  | nil => exact ⟨rfl, by simp [hrep]⟩
  | cons q rest =>
    obtain ⟨f, hf⟩ := hall q (List.mem_cons_self _ _)
    have hq2 : scanStep env dirPath licenseTag st q
        = { pkg := { st.pkg with Files := st.pkg.Files ++ [f] },
            sharedErr := none, reported := some e } := by
      rw [scanStep_ok env dirPath licenseTag st q f hf, hrep, hsh]
    have h2 := scanFold_ok_clean env dirPath licenseTag rest
      (scanStep env dirPath licenseTag st q)
      (fun x hx => hall x (List.mem_cons_of_mem _ hx)) (by rw [hq2])
    simp only [List.foldl_cons]
    constructor
    · rw [h2.1, hq2]
      simp [List.length_append]
      omega
    · rw [h2.2.2, hq2]
      simp

/-- C1 (amended): when the file list processed by the coordinator inside
`PackageFromDirectory` contains one unreadable file among K readable ones
(`pre` and `post` scan successfully, `bad` fails with error `e`), every file
in the list is still dispatched and the shared package receives exactly K
Files — but because `defer t.Done(err)` evaluates the shared `err` at
closure entry, each error reaches the pool one dispatch late: when at least
one file is dispatched after the failing one, the overall call returns the
failure's error and no package; when the failing file is the last
dispatched, its error never reaches the pool, and (with no go-module pass)
the call returns the incomplete K-file package with a nil error. -/
theorem coordinator_drains_error_one_late
    (env : SpdxImplementation) (opts : Options) (nameUUID dirPath0 dirPath : String)
    (tree patterns : List String) (dirLic : Option License)
    (pre post : List String) (bad e : String)
    (habs : env.Abs dirPath0 = .ok dirPath)
    (htree : env.GetDirectoryTree dirPath = .ok tree)
    (hreader : env.LicenseReader opts = .ok ())
    (hlic : env.GetDirectoryLicense dirPath opts = .ok dirLic)
    (hpats : env.IgnorePatterns dirPath opts.IgnorePatterns opts.NoGitignore = .ok patterns)
    (hlist : env.ApplyIgnorePatterns tree patterns = pre ++ bad :: post)
    (hpre : ∀ p ∈ pre, ∃ f, processDirectoryFile env dirPath (licTag dirLic) p = .ok f)
    (hbad : processDirectoryFile env dirPath (licTag dirLic) bad = .error e)
    (hpost : ∀ p ∈ post, ∃ f, processDirectoryFile env dirPath (licTag dirLic) p = .ok f) :
    (∀ pkg : Package,
      (scanFiles env dirPath (licTag dirLic) (pre ++ bad :: post) pkg).pkg.Files.length
        = pkg.Files.length + (pre.length + post.length)) ∧
    (post ≠ [] → PackageFromDirectory env opts nameUUID dirPath0 = .error e) ∧
    (post = [] → ∀ pkg : Package,
      (scanFiles env dirPath (licTag dirLic) (pre ++ bad :: post) pkg).reported = none) ∧
    (post = [] →
      (env.FileExists (joinPath dirPath GoModFileName) && opts.ProcessGoModules) = false →
      ∃ pkg, PackageFromDirectory env opts nameUUID dirPath0 = .ok pkg ∧
        pkg.Files.length = pre.length) := by
  have hchar : ∀ pkg : Package,
      (scanFiles env dirPath (licTag dirLic) (pre ++ bad :: post) pkg).pkg.Files.length
        = pkg.Files.length + (pre.length + post.length) ∧
      (scanFiles env dirPath (licTag dirLic) (pre ++ bad :: post) pkg).reported
        = (if post = [] then none else some e) := by
    intro pkg
    unfold scanFiles
    rw [List.foldl_append, List.foldl_cons]
    have h1 := scanFold_ok_clean env dirPath (licTag dirLic) pre
      { pkg := pkg, sharedErr := none, reported := none } hpre rfl
    have hbadstep : scanStep env dirPath (licTag dirLic)
        (List.foldl (scanStep env dirPath (licTag dirLic))
          { pkg := pkg, sharedErr := none, reported := none } pre) bad
        = { pkg := (List.foldl (scanStep env dirPath (licTag dirLic))
              { pkg := pkg, sharedErr := none, reported := none } pre).pkg,
            sharedErr := some e, reported := none } := by
      rw [scanStep_error env dirPath (licTag dirLic) _ bad e hbad]
      simp [h1.2.1, h1.2.2]
    rw [hbadstep]
    have h3 := scanFold_post_error env dirPath (licTag dirLic) post e
      { pkg := (List.foldl (scanStep env dirPath (licTag dirLic))
          { pkg := pkg, sharedErr := none, reported := none } pre).pkg,
        sharedErr := some e, reported := none }
      hpost rfl rfl
    refine ⟨?_, h3.2⟩
    rw [h3.1]
    have hfl := h1.1
    simp at hfl ⊢
    omega
  refine ⟨fun pkg => (hchar pkg).1, ?_, ?_, ?_⟩
  · intro hne
    unfold PackageFromDirectory
    simp only [habs, htree, hreader, hlic, hpats, hlist]
    rw [(hchar _).2, if_neg hne]
  · intro hnil pkg
    rw [(hchar pkg).2, if_pos hnil]
  · intro hnil hgm
    subst hnil
    unfold PackageFromDirectory
    simp only [habs, htree, hreader, hlic, hpats, hlist]
    rw [(hchar _).2]
    simp only [if_pos rfl, hgm, Bool.false_eq_true, if_false]
    refine ⟨_, rfl, ?_⟩
    rw [(hchar _).1]
    simp [NewPackage]

/-- C1 witness (for the amended theorem): in the sample environment the list
is `a.txt`, `bad.bin`, `LICENSE` — the failure is followed by another
dispatch, so both readable files are inserted and the call returns the
failure's error with no package. -/
theorem coordinator_drains_error_one_late_witness :
    (scanFiles sampleEnv "/repo" "Apache-2.0"
        ["a.txt", "bad.bin", "LICENSE"] NewPackage).pkg.Files.length
      = NewPackage.Files.length + (1 + 1) ∧
    PackageFromDirectory sampleEnv sampleOptions "u" "/repo"
      = .error "checksumming file: read failed" := by
  have h := coordinator_drains_error_one_late sampleEnv sampleOptions "u"
    "/repo" "/repo" ["a.txt", "bad.bin", "LICENSE"] [] (some { LicenseID := "Apache-2.0" })
    ["a.txt"] ["LICENSE"] "bad.bin" "checksumming file: read failed"
    rfl rfl rfl rfl rfl rfl
    (by
      intro p hp
      rw [List.mem_singleton] at hp
      subst hp
      exact ⟨_, rfl⟩)
    rfl
    (by
      intro p hp
      rw [List.mem_singleton] at hp
      subst hp
      exact ⟨_, rfl⟩)
  exact ⟨h.1 NewPackage, h.2.1 (by simp)⟩

end Spdx

namespace Spdx

theorem foldl_AddDependency_meta (deps : List DepPackage) :
    ∀ pkg : Package,
      (deps.foldl Package.AddDependency pkg).Dependencies = pkg.Dependencies ++ deps ∧
      (deps.foldl Package.AddDependency pkg).Relationships
        = pkg.Relationships ++ deps.map depRel ∧
      (deps.foldl Package.AddDependency pkg).LicenseConcluded = pkg.LicenseConcluded ∧
      (deps.foldl Package.AddDependency pkg).FilesAnalyzed = pkg.FilesAnalyzed := by
  induction deps with
  | nil => intro pkg; simp
  | cons d rest ih =>
    intro pkg
    have h := ih (pkg.AddDependency d)
    simp only [List.foldl_cons, List.map_cons]
    refine ⟨?_, ?_, ?_, ?_⟩
    · rw [h.1]
      simp [Package.AddDependency]
    · rw [h.2.1]
      simp [Package.AddDependency]
    · rw [h.2.2.1]
      simp [Package.AddDependency]
    · rw [h.2.2.2]
      simp [Package.AddDependency]

theorem scanFiles_meta (env : SpdxImplementation) (d t : String) (l : List String)
    (pkg : Package) :
    (scanFiles env d t l pkg).pkg.Name = pkg.Name ∧
    (scanFiles env d t l pkg).pkg.FilesAnalyzed = pkg.FilesAnalyzed ∧
    (scanFiles env d t l pkg).pkg.LicenseConcluded = pkg.LicenseConcluded ∧
    (scanFiles env d t l pkg).pkg.Relationships = pkg.Relationships ∧
    (scanFiles env d t l pkg).pkg.Dependencies = pkg.Dependencies := by
  unfold scanFiles
  exact scanFold_meta env d t l { pkg := pkg, sharedErr := none, reported := none }

theorem scanFiles_all_ok (env : SpdxImplementation) (d t : String) (l : List String)
    (pkg : Package)
    (h : ∀ p ∈ l, ∃ f, processDirectoryFile env d t p = .ok f) :
    (scanFiles env d t l pkg).reported = none ∧
    (scanFiles env d t l pkg).pkg.Files.length = pkg.Files.length + l.length := by
  unfold scanFiles
  have h0 := scanFold_ok_clean env d t l
    { pkg := pkg, sharedErr := none, reported := none } h rfl
  exact ⟨h0.2.2, h0.1⟩

/-- C5: when the directory holds a go.mod manifest and dependency processing
is enabled, a dependency-resolution failure aborts the whole
directory-to-package call with a wrapped error and no package, while a
successful resolution yields a package with every resolved dependency
attached as a sub-package linked by a `DEPENDS_ON` relationship. -/
theorem goModules_all_or_nothing
    (env : SpdxImplementation) (opts : Options) (nameUUID dirPath0 dirPath : String)
    (tree patterns : List String) (dirLic : Option License)
    (habs : env.Abs dirPath0 = .ok dirPath)
    (htree : env.GetDirectoryTree dirPath = .ok tree)
    (hreader : env.LicenseReader opts = .ok ())
    (hlic : env.GetDirectoryLicense dirPath opts = .ok dirLic)
    (hpats : env.IgnorePatterns dirPath opts.IgnorePatterns opts.NoGitignore = .ok patterns)
    (hfiles : ∀ p ∈ env.ApplyIgnorePatterns tree patterns,
      ∃ f, processDirectoryFile env dirPath (licTag dirLic) p = .ok f)
    (hmod : env.FileExists (joinPath dirPath GoModFileName) = true)
    (hopt : opts.ProcessGoModules = true) :
    (∀ e, env.GetGoDependencies dirPath opts = .error e →
      PackageFromDirectory env opts nameUUID dirPath0
        = .error ("scanning go packages: " ++ e)) ∧
    (∀ deps, env.GetGoDependencies dirPath opts = .ok deps →
      ∃ pkg, PackageFromDirectory env opts nameUUID dirPath0 = .ok pkg ∧
        pkg.Dependencies = deps ∧ ∀ dep ∈ deps, depRel dep ∈ pkg.Relationships) := by
  have hscan := scanFiles_all_ok env dirPath (licTag dirLic)
    (env.ApplyIgnorePatterns tree patterns)
    { NewPackage with
      FilesAnalyzed := true,
      Name := if env.Base dirPath = "" then nameUUID else env.Base dirPath,
      LicenseConcluded := licTag dirLic } hfiles
  have hmeta := scanFiles_meta env dirPath (licTag dirLic)
    (env.ApplyIgnorePatterns tree patterns)
    { NewPackage with
      FilesAnalyzed := true,
      Name := if env.Base dirPath = "" then nameUUID else env.Base dirPath,
      LicenseConcluded := licTag dirLic }
  constructor
  · intro e he
    unfold PackageFromDirectory
    simp only [habs, htree, hreader, hlic, hpats, hscan.1, hmod, hopt, he,
      Bool.and_self, if_true]
  · intro deps hdeps
    refine ⟨deps.foldl Package.AddDependency
      (scanFiles env dirPath (licTag dirLic) (env.ApplyIgnorePatterns tree patterns)
        { NewPackage with
          FilesAnalyzed := true,
          Name := if env.Base dirPath = "" then nameUUID else env.Base dirPath,
          LicenseConcluded := licTag dirLic }).pkg, ?_, ?_, ?_⟩
    · unfold PackageFromDirectory
      simp only [habs, htree, hreader, hlic, hpats, hscan.1, hmod, hopt, hdeps,
        Bool.and_self, if_true]
    · rw [(foldl_AddDependency_meta deps _).1, hmeta.2.2.2.2]
      simp [NewPackage]
    · intro dep hdep
      rw [(foldl_AddDependency_meta deps _).2.1]
      exact List.mem_append_right _ (List.mem_map_of_mem depRel hdep)

/-- C10: for every successful `PackageFromDirectory` call on a directory
where directory-level license classification found no license, the returned
package's concluded license is the empty string — neither the `NONE` nor the
`NOASSERTION` sentinel — and its `FilesAnalyzed` flag is true. -/
theorem no_dir_license_package_fields
    (env : SpdxImplementation) (opts : Options) (nameUUID dirPath0 dirPath : String)
    (pkg : Package)
    (habs : env.Abs dirPath0 = .ok dirPath)
    (hlic : env.GetDirectoryLicense dirPath opts = .ok none)
    (hok : PackageFromDirectory env opts nameUUID dirPath0 = .ok pkg) :
    pkg.LicenseConcluded = "" ∧ pkg.LicenseConcluded ≠ NONE ∧
    pkg.LicenseConcluded ≠ NOASSERTION ∧ pkg.FilesAnalyzed = true := by
  unfold PackageFromDirectory at hok
  simp only [habs] at hok
  cases htree : env.GetDirectoryTree dirPath with
  | error e => simp [htree] at hok
  | ok tree =>
  simp only [htree] at hok
  cases hr : env.LicenseReader opts with
  | error e => simp [hr] at hok
  | ok u =>
  simp only [hr, hlic] at hok
  cases hp : env.IgnorePatterns dirPath opts.IgnorePatterns opts.NoGitignore with
  | error e => simp [hp] at hok
  | ok patterns =>
  simp only [hp] at hok
  have hmeta := scanFiles_meta env dirPath (licTag none)
    (env.ApplyIgnorePatterns tree patterns)
    { NewPackage with
      FilesAnalyzed := true,
      Name := if env.Base dirPath = "" then nameUUID else env.Base dirPath,
      LicenseConcluded := licTag none }
  cases hsc : (scanFiles env dirPath (licTag none)
      (env.ApplyIgnorePatterns tree patterns)
      { NewPackage with
        FilesAnalyzed := true,
        Name := if env.Base dirPath = "" then nameUUID else env.Base dirPath,
        LicenseConcluded := licTag none }).reported with
  | some e => rw [hsc] at hok; exact absurd hok (by simp)
  | none =>
  rw [hsc] at hok
  by_cases hgm : (env.FileExists (joinPath dirPath GoModFileName)
      && opts.ProcessGoModules) = true
  · rw [if_pos hgm] at hok
    cases hdeps : env.GetGoDependencies dirPath opts with
    | error e => rw [hdeps] at hok; exact absurd hok (by simp)
    | ok deps =>
    rw [hdeps] at hok
    have hpkg : deps.foldl Package.AddDependency
        (scanFiles env dirPath (licTag none)
          (env.ApplyIgnorePatterns tree patterns)
          { NewPackage with
            FilesAnalyzed := true,
            Name := if env.Base dirPath = "" then nameUUID else env.Base dirPath,
            LicenseConcluded := licTag none }).pkg = pkg := by
      simpa using hok
    have hfold := foldl_AddDependency_meta deps
      (scanFiles env dirPath (licTag none)
        (env.ApplyIgnorePatterns tree patterns)
        { NewPackage with
          FilesAnalyzed := true,
          Name := if env.Base dirPath = "" then nameUUID else env.Base dirPath,
          LicenseConcluded := licTag none }).pkg
    have hl : pkg.LicenseConcluded = "" := by
      rw [← hpkg, hfold.2.2.1, hmeta.2.2.1]
      simp [licTag, NewPackage]
    have hf : pkg.FilesAnalyzed = true := by
      rw [← hpkg, hfold.2.2.2, hmeta.2.1]
    refine ⟨hl, ?_, ?_, hf⟩
    · rw [hl]; simp [NONE]
    · rw [hl]; simp [NOASSERTION]
  · rw [if_neg hgm] at hok
    have hpkg : (scanFiles env dirPath (licTag none)
        (env.ApplyIgnorePatterns tree patterns)
        { NewPackage with
          FilesAnalyzed := true,
          Name := if env.Base dirPath = "" then nameUUID else env.Base dirPath,
          LicenseConcluded := licTag none }).pkg = pkg := by
      simpa using hok
    have hl : pkg.LicenseConcluded = "" := by
      rw [← hpkg, hmeta.2.2.1]
      simp [licTag, NewPackage]
    have hf : pkg.FilesAnalyzed = true := by
      rw [← hpkg, hmeta.2.1]
    refine ⟨hl, ?_, ?_, hf⟩
    · rw [hl]; simp [NONE]
    · rw [hl]; simp [NOASSERTION]

end Spdx

namespace Spdx

/-- A variant of the sample environment with no unreadable file, used to
evaluate the successful paths on explicit inputs. -/
def sampleEnvOk : SpdxImplementation :=
  { sampleEnv with
    GetDirectoryTree := fun _ => .ok ["a.txt", "LICENSE"],
    ReadSourceFile := fun _ => .ok [("SHA256", "abc")] }

/-- A variant of the readable sample environment whose directory-level
license classification finds nothing. -/
def sampleEnvNoLic : SpdxImplementation :=
  { sampleEnvOk with
    GetDirectoryLicense := fun _ _ => .ok none,
    LicenseFromFile := fun _ => .ok none }

/-- C5 witness: the sample directory carries a go.mod resolving to one
dependency; the successful call attaches it as a sub-package with a
`DEPENDS_ON` relationship. -/
theorem goModules_all_or_nothing_witness :
    ∃ pkg, PackageFromDirectory sampleEnvOk sampleOptions "u" "/repo" = .ok pkg ∧
      pkg.Dependencies = [{ Name := "sigs.k8s.io/yaml", Version := "v1.2.0" }] ∧
      ∀ dep ∈ ([{ Name := "sigs.k8s.io/yaml", Version := "v1.2.0" }] : List DepPackage),
        depRel dep ∈ pkg.Relationships :=
  (goModules_all_or_nothing sampleEnvOk sampleOptions "u" "/repo" "/repo"
    ["a.txt", "LICENSE"] [] (some { LicenseID := "Apache-2.0" })
    rfl rfl rfl rfl rfl
    (by
      intro p hp
      have hp2 : p ∈ (["a.txt", "LICENSE"] : List String) := hp
      simp only [List.mem_cons, List.not_mem_nil, or_false] at hp2
      rcases hp2 with hp2 | hp2
      · subst hp2; exact ⟨_, rfl⟩
      · subst hp2; exact ⟨_, rfl⟩)
    rfl rfl).2
    [{ Name := "sigs.k8s.io/yaml", Version := "v1.2.0" }] rfl

/-- C10 witness: a successful call on the no-license sample environment
returns a package with empty concluded license and `FilesAnalyzed` true. -/
theorem no_dir_license_package_fields_witness :
    ∃ pkg, PackageFromDirectory sampleEnvNoLic sampleOptions "u" "/repo" = .ok pkg ∧
      (pkg.LicenseConcluded = "" ∧ pkg.LicenseConcluded ≠ NONE ∧
       pkg.LicenseConcluded ≠ NOASSERTION ∧ pkg.FilesAnalyzed = true) :=
  ⟨_, rfl, no_dir_license_package_fields sampleEnvNoLic sampleOptions "u" "/repo"
    "/repo" _ rfl rfl rfl⟩

end Spdx

namespace Anago

open Spdx

theorem stampDoc_props (version chk : String) (doc : Document) :
    (∀ pkg ∈ (stampDoc version chk doc).Packages,
      stampRel version ∈ pkg.Relationships) ∧
    sourceExtRef version chk ∈ (stampDoc version chk doc).ExternalDocRefs := by
  constructor
  · intro pkg hpkg
    simp only [stampDoc] at hpkg
    obtain ⟨q, _, rfl⟩ := List.mem_map.mp hpkg
    simp [Package.AddRelationship]
  · simp [stampDoc]

/-- C6: whenever `GenerateVersionArtifactsBOM` succeeds, the document it
serialized carries, on every package, a `GENERATED_FROM` relationship whose
external peer reference is the alias `kubernetes-<version>` — the alias the
document declares as an external document reference pointing at the
source-tree SBOM of that version — and the stamping happened before the
document was written. -/
theorem artifacts_bom_generated_from (impl : StageImpl) (version : String)
    (doc : Document)
    (hok : GenerateVersionArtifactsBOM impl version = .ok doc) :
    (∀ pkg ∈ doc.Packages, ∃ r ∈ pkg.Relationships,
      r.RelType = GENERATED_FROM ∧ r.PeerExtReference = "kubernetes-" ++ version) ∧
    ∃ ref ∈ doc.ExternalDocRefs,
      ref.ID = "kubernetes-" ++ version ∧
      ref.URI = "https://sbom.k8s.io/" ++ version ++ "/source" := by
  unfold GenerateVersionArtifactsBOM at hok
  split at hok
  · simp at hok
  · split at hok
    · simp at hok
    · split at hok
      · simp at hok
      · split at hok
        · simp at hok
        · split at hok
          · simp at hok
          · split at hok
            · simp at hok
            · rw [Except.ok.injEq] at hok
              subst hok
              refine ⟨?_, ?_⟩
              · intro pkg hpkg
                exact ⟨stampRel version, (stampDoc_props version _ _).1 pkg hpkg,
                  rfl, rfl⟩
              · exact ⟨sourceExtRef version _, (stampDoc_props version _ _).2,
                  rfl, rfl⟩

/-- A concrete stage capability bundle: one image archive, a base document
with one package, no-op binary/tarball additions, a fixed checksum, and a
successful write. -/
def sampleStageImpl : StageImpl :=
  { ListImageArchives := fun _ => .ok ["kube-apiserver.tar"],
    BuildBaseArtifactsSBOM := fun o =>
      .ok { Name := o.Name, Namespace := o.Namespace,
            Packages := [{ NewPackage with Name := "kube-apiserver" }],
            ExternalDocRefs := [] },
    AddBinariesToSBOM := fun d _ => .ok d,
    AddTarfilesToSBOM := fun d _ => .ok d,
    ReadExtRefChecksum := fun _ => .ok "deadbeef",
    WriteDocument := fun _ _ => .ok () }

/-- C6 witness: the concrete stage run for version `v1.22.0` produces a
written document whose only package is stamped and whose external reference
names the version's source-tree SBOM. -/
theorem artifacts_bom_generated_from_witness :
    ∃ doc, GenerateVersionArtifactsBOM sampleStageImpl "v1.22.0" = .ok doc ∧
      ((∀ pkg ∈ doc.Packages, ∃ r ∈ pkg.Relationships,
          r.RelType = GENERATED_FROM ∧
          r.PeerExtReference = "kubernetes-" ++ "v1.22.0") ∧
       ∃ ref ∈ doc.ExternalDocRefs,
          ref.ID = "kubernetes-" ++ "v1.22.0" ∧
          ref.URI = "https://sbom.k8s.io/" ++ "v1.22.0" ++ "/source") :=
  ⟨_, rfl, artifacts_bom_generated_from sampleStageImpl "v1.22.0" _ rfl⟩

end Anago
